import Mathlib

/-!
Shallow embedding of the star-registry blockchain (src/src/blockchain.js)
together with the Block class it uses.  The Block class itself
(src/block.js) is not part of the sources, so its operations are modelled
from the specification (marked `Modelled from the spec:` below); the
Blockchain class methods are translated directly from src/src/blockchain.js.

Modelling conventions:
* the cryptographic digest is modelled as a free (hence injective)
  constructor over the hashed preimage — the standard perfect-hash
  assumption stated in the spec ("different input in any field implies
  different output");
* times are integer seconds (the JS `timestamp()` helper returns the
  epoch time in seconds); the current time is an explicit parameter of
  every operation that reads the clock;
* the external signature-verification collaborator `bitcoinMessage.verify`
  is an arbitrary function parameter `verify`;
* promise-wrapped JS methods are pure functions; rejection is an
  `Except` error value paired with the (unchanged) ledger state.
-/

/-- Block payload (the `body` of a block): either a plain data string such
as the genesis literal, or a star-ownership claim `{owner, star}`. -/
inductive BData where
  | str (s : String) : BData
  | claim (owner : String) (star : String) : BData
deriving DecidableEq, Repr

/-- A digest.  Modelled from the spec: the digest of the canonical
encoding of a block is a pure, collision-free function of the fields
(`height`, `time`, `previousBlockHash`, `body`) — the stored `hash`
field itself is excluded from the preimage.  Free constructors over the
preimage give exactly such a function; the `Option` on the predecessor
link is split into two constructors (link absent / link present) so the
inductive is not nested. -/
inductive Hash where
  | sha256none (height : Int) (time : Nat) (body : BData) : Hash
  | sha256some (height : Int) (time : Nat) (prev : Hash) (body : BData) : Hash
deriving DecidableEq, Repr

/-- The digest of a preimage whose predecessor link is an `Option`. -/
def Hash.sha256 (height : Int) (time : Nat) (prev : Option Hash) (body : BData) : Hash :=
  match prev with
  | none => Hash.sha256none height time body
  | some p => Hash.sha256some height time p body

/-- Modelled from the spec: a Block holds a height, a creation time, the
link to the predecessor digest (absent for genesis), an opaque body and
its own stored digest (absent until assigned). -/
structure Block where
  height : Int
  time : Nat
  previousBlockHash : Option Hash
  body : BData
  hash : Option Hash
deriving DecidableEq, Repr

/-- Modelled from the spec: `Construct(payload)` creates a Block with
height and time left for the owning ledger to assign, `previousBlockHash`
empty, `hash` empty, and the given payload. -/
def Block.construct (d : BData) : Block :=
  { height := 0, time := 0, previousBlockHash := none, body := d, hash := none }

/-- Modelled from the spec: `computeHash()` digests the canonical encoding
of the current `height`, `time`, `previousBlockHash` and `body`,
excluding the stored `hash` field itself. -/
def Block.computeHash (b : Block) : Hash :=
  Hash.sha256 b.height b.time b.previousBlockHash b.body

/-- Modelled from the spec: `validate()` recomputes the digest over the
current field values and compares it with the stored `hash`. -/
def Block.validate (b : Block) : Bool :=
  decide (b.hash = some b.computeHash)

/-- Modelled from the spec: `getBData()` returns the decoded payload of
the block. -/
def Block.getBData (b : Block) : BData :=
  b.body

/-- Whether a decoded payload has `owner` equal to `address`
(the JS test `blockData.owner === address`; a plain-string payload has no
`owner` field, and `undefined === address` is false for a string
address). -/
def BData.ownerIs (d : BData) (address : String) : Bool :=
  match d with
  | .claim owner _ => owner = address
  | .str _ => false

/-- The ledger state: the chain array and the cached height
(initialised to `-1` in the JS constructor). -/
structure Blockchain where
  chain : List Block
  height : Int
deriving DecidableEq, Repr

/-- The constant `VALIDATION_TIMEOUT_SECONDS = 5 * 60`. -/
def VALIDATION_TIMEOUT_SECONDS : Int := 5 * 60

/-- The block as fully populated by `_addBlock`: height and time are
assigned, the predecessor link is set when the chain is non-empty
(otherwise the incoming value is kept, as in the JS code), and the
digest is computed last over the resulting fields. -/
def Blockchain.addedBlock (bc : Blockchain) (now : Nat) (block : Block) : Block :=
  let b : Block :=
    { block with
      height := bc.height + 1
      time := now
      previousBlockHash :=
        match bc.chain.getLast? with
        | some prev => prev.hash
        | none => block.previousBlockHash }
  { b with hash := some b.computeHash }

/-- The method `_addBlock(block)`: populate the block, push it on the chain, bump the
cached height, and return the added block. -/
def Blockchain._addBlock (bc : Blockchain) (now : Nat) (block : Block) :
    Blockchain × Block :=
  let b := bc.addedBlock now block
  ({ chain := bc.chain ++ [b], height := bc.height + 1 }, b)

/-- The method `initializeChain()`: if the cached height is `-1`, add the genesis
block with payload `{ data: "Genesis Block" }`; otherwise do nothing. -/
def Blockchain.initializeChain (bc : Blockchain) (now : Nat) : Blockchain :=
  if bc.height = -1 then
    (bc._addBlock now (Block.construct (BData.str "Genesis Block"))).1
  else bc

/-- The JS constructor: empty chain, height `-1`, then `initializeChain()`. -/
def Blockchain.construct (now : Nat) : Blockchain :=
  Blockchain.initializeChain { chain := [], height := -1 } now

/-- The method `getChainHeight()`. -/
def Blockchain.getChainHeight (bc : Blockchain) : Int :=
  bc.height

/-- JS array indexing `chain[i]` where `i` may be any integer:
out-of-range (including negative) indices give `undefined`. -/
def chainGet (chain : List Block) (i : Int) : Option Block :=
  if 0 ≤ i then chain[i.toNat]? else none

/-- The method `validateChain()`: a block is kept in the error log iff its
self-validation fails AND a block exists at index `height + 1` AND
the `previousBlockHash` of that block differs from the `hash` of this one
(the `validityByIndex[index]` value of the JS filter equals
`block.validate()` because validation is a pure function of the block). -/
def Blockchain.validateChain (bc : Blockchain) : List Block :=
  bc.chain.filter fun block =>
    if block.validate then false
    else
      match chainGet bc.chain (block.height + 1) with
      | some nextBlock => decide (nextBlock.previousBlockHash ≠ block.hash)
      | none => false

/-- The method `getBlockByHash(hash)`. -/
def Blockchain.getBlockByHash (bc : Blockchain) (h : Hash) : Option Block :=
  bc.chain.find? fun b => decide (b.hash = some h)

/-- The method `getBlockByHeight(height)`. -/
def Blockchain.getBlockByHeight (bc : Blockchain) (height : Int) : Option Block :=
  bc.chain.find? fun b => decide (b.height = height)

/-- The method `getStarsByWalletAddress(address)`: decode every block after the
genesis block and keep those whose owner equals `address`. -/
def Blockchain.getStarsByWalletAddress (bc : Blockchain) (address : String) :
    List BData :=
  ((bc.chain.drop 1).map Block.getBData).filter fun d => d.ownerIs address

/-- The method `requestMessageOwnershipVerification(address)` builds
`[address, timestamp(), "starRegistry"].join(":")`. -/
def Blockchain.requestMessageOwnershipVerification (now : Nat) (address : String) :
    String :=
  String.intercalate ":" [address, toString now, "starRegistry"]

/-- Splitting a string at every colon, as JS `message.split(":")`. -/
def splitColonAux : List Char → List Char → List (List Char)
  | [], acc => [acc.reverse]
  | c :: cs, acc =>
      if c = ':' then acc.reverse :: splitColonAux cs []
      else splitColonAux cs (c :: acc)

/-- JS `s.split(":")`. -/
def jsSplitColon (s : String) : List String :=
  (splitColonAux s.data []).map String.mk

/-- Leading JS whitespace skipped by `parseInt`. -/
def dropLeadingWs : List Char → List Char
  | [] => []
  | c :: cs =>
      if c = ' ' ∨ c = '\t' ∨ c = '\n' ∨ c = '\r' then dropLeadingWs cs
      else c :: cs

/-- Longest leading run of decimal digits. -/
def takeDigits : List Char → List Char
  | [] => []
  | c :: cs => if c.isDigit then c :: takeDigits cs else []

/-- Value of a digit string. -/
def digitsToNat (cs : List Char) : Nat :=
  cs.foldl (fun acc c => acc * 10 + (c.toNat - 48)) 0

/-- JS `Number.parseInt(s, 10)`: skip leading whitespace, read an optional
sign and then the longest run of decimal digits; `NaN` (here `none`) when
no digit follows. -/
def jsParseInt (s : String) : Option Int :=
  let cs := dropLeadingWs s.data
  let signAndRest : Int × List Char :=
    match cs with
    | '-' :: rest => (-1, rest)
    | '+' :: rest => (1, rest)
    | _ => (1, cs)
  let ds := takeDigits signAndRest.2
  if ds.isEmpty then none else some (signAndRest.1 * digitsToNat ds)

/-- The value `Number.parseInt(message.split(":")[1], 10)`: `none` plays the role of
JS `NaN` (also produced when the split has no second field). -/
def jsMessageTime (message : String) : Option Int :=
  ((jsSplitColon message)[1]?).bind jsParseInt

/-- The two rejection reasons of `submitStar`. -/
inductive SubmitError where
  | expiredChallenge
  | invalidSignature
deriving DecidableEq, Repr

/-- The method `submitStar(address, message, signature, star)`.  The comparison
`currentTime - messageTime > VALIDATION_TIMEOUT_SECONDS` is false whenever
`messageTime` is `NaN` (any comparison with `NaN` is false in JS).  The
result pairs the resolved block (or the rejection error) with the
resulting ledger state; a rejection leaves the state untouched. -/
def Blockchain.submitStar (bc : Blockchain)
    (verify : String → String → String → Bool) (now : Nat)
    (address message signature star : String) :
    Except SubmitError Block × Blockchain :=
  let messageTime := jsMessageTime message
  let expired : Bool :=
    match messageTime with
    | some t => (now : Int) - t > VALIDATION_TIMEOUT_SECONDS
    | none => false
  if expired then (Except.error SubmitError.expiredChallenge, bc)
  else if !verify message address signature then
    (Except.error SubmitError.invalidSignature, bc)
  else
    let block := Block.construct (BData.claim address star)
    let r := bc._addBlock now block
    (Except.ok r.2, r.1)

/-- One ledger-mutating operation, used to quantify over "any sequence of
operations". -/
inductive Op where
  | addBlock (now : Nat) (b : Block) : Op
  | initChain (now : Nat) : Op
  | submit (verify : String → String → String → Bool) (now : Nat)
      (address message signature star : String) : Op

/-- Apply one operation to the ledger state. -/
def applyOp (bc : Blockchain) : Op → Blockchain
  | .addBlock now b => (bc._addBlock now b).1
  | .initChain now => bc.initializeChain now
  | .submit verify now address message signature star =>
      (bc.submitStar verify now address message signature star).2

/-- Run a sequence of operations. -/
def runOps (bc : Blockchain) (ops : List Op) : Blockchain :=
  ops.foldl applyOp bc

/-! ## Concrete chains used for counterexamples and evaluations -/

/-- A fresh ledger with three blocks appended (payloads "foo", "bar",
"qux"), exactly as in Scenario A and the unit test. -/
def exampleChain : Blockchain :=
  let bc := Blockchain.construct 100
  let bc := (bc._addBlock 101 (Block.construct (BData.str "foo"))).1
  let bc := (bc._addBlock 102 (Block.construct (BData.str "bar"))).1
  (bc._addBlock 103 (Block.construct (BData.str "qux"))).1

/-- The first appended block (chain index 1, a non-terminal block). -/
def origBlock1 : Block :=
  exampleChain.chain.getD 1 (Block.construct (BData.str ""))

/-- The chain `exampleChain` after overwriting the payload of the block at index 1
(a single-field external mutation of a non-terminal block). -/
def tamperedChain : Blockchain :=
  { exampleChain with
    chain := exampleChain.chain.set 1 { origBlock1 with body := BData.str "tampered" } }

/-! ## Helper lemmas -/

theorem Block.validate_eq_true_iff (b : Block) :
    b.validate = true ↔ b.hash = some b.computeHash := by
  simp [Block.validate]

theorem addedBlock_validate (bc : Blockchain) (now : Nat) (b : Block) :
    (bc.addedBlock now b).validate = true := by
  rw [Block.validate_eq_true_iff]
  rfl

/-- The reachable-state invariant: the cached height mirrors the chain
length, heights equal positions, and every stored block passes its own
validation. -/
def goodChain (bc : Blockchain) : Prop :=
  bc.height = (bc.chain.length : Int) - 1 ∧
  (∀ i : Fin bc.chain.length, (bc.chain.get i).height = (i.val : Int)) ∧
  (∀ b ∈ bc.chain, b.validate = true)

theorem goodChain_snoc (bc : Blockchain) (a : Block)
    (h : goodChain bc) (ha : a.height = bc.height + 1) (hv : a.validate = true) :
    goodChain ⟨bc.chain ++ [a], bc.height + 1⟩ := by
  obtain ⟨hh, hidx, hval⟩ := h
  refine ⟨?_, ?_, ?_⟩
  · show bc.height + 1 = ((bc.chain ++ [a]).length : Int) - 1
    simp [hh]
  · intro i
    have hlen : (bc.chain ++ [a]).length = bc.chain.length + 1 := by simp
    have hilt : i.val < (bc.chain ++ [a]).length := i.isLt
    rcases Nat.lt_or_ge i.val bc.chain.length with hlt | hge
    · have he : ((bc.chain ++ [a]).get i) = bc.chain.get ⟨i.val, hlt⟩ := by
        simp only [List.get_eq_getElem]
        exact List.getElem_append_left hlt
      show ((bc.chain ++ [a]).get i).height = (i.val : Int)
      rw [he]
      exact hidx ⟨i.val, hlt⟩
    · have hilt2 : i.val < bc.chain.length + 1 := hlen ▸ hilt
      have hi : i.val = bc.chain.length := by omega
      have he : ((bc.chain ++ [a]).get i) = a := by
        simp only [List.get_eq_getElem]
        exact List.getElem_concat_length bc.chain a i.val hi _
      show ((bc.chain ++ [a]).get i).height = (i.val : Int)
      rw [he, ha, hi, hh]
      omega
  · intro x hx
    rcases List.mem_append.mp hx with hx | hx
    · exact hval x hx
    · rcases List.mem_singleton.mp hx with rfl
      exact hv

theorem goodChain_addBlock (bc : Blockchain) (now : Nat) (b : Block)
    (h : goodChain bc) : goodChain (bc._addBlock now b).1 :=
  goodChain_snoc bc (bc.addedBlock now b) h rfl (addedBlock_validate bc now b)

theorem initializeChain_noop (bc : Blockchain) (now : Nat)
    (h : bc.height ≠ -1) : bc.initializeChain now = bc := by
  simp [Blockchain.initializeChain, h]

theorem goodChain_initialize (bc : Blockchain) (now : Nat)
    (h : goodChain bc) : goodChain (bc.initializeChain now) := by
  unfold Blockchain.initializeChain
  by_cases hh : bc.height = -1
  · simp only [hh, if_pos rfl]
    exact goodChain_addBlock bc now _ h
  · simp only [if_neg hh]
    exact h

theorem goodChain_submit (bc : Blockchain)
    (verify : String → String → String → Bool) (now : Nat)
    (address message signature star : String) (h : goodChain bc) :
    goodChain (bc.submitStar verify now address message signature star).2 := by
  unfold Blockchain.submitStar
  dsimp only
  split
  · exact h
  · split
    · exact h
    · exact goodChain_addBlock bc now _ h

theorem goodChain_applyOp (bc : Blockchain) (op : Op) (h : goodChain bc) :
    goodChain (applyOp bc op) := by
  cases op with
  | addBlock now b => exact goodChain_addBlock bc now b h
  | initChain now => exact goodChain_initialize bc now h
  | submit verify now address message signature star =>
      exact goodChain_submit bc verify now address message signature star h

theorem goodChain_runOps (bc : Blockchain) (ops : List Op) (h : goodChain bc) :
    goodChain (runOps bc ops) := by
  induction ops generalizing bc with
  | nil => exact h
  | cons op ops ih => exact ih (applyOp bc op) (goodChain_applyOp bc op h)

theorem goodChain_construct (now : Nat) : goodChain (Blockchain.construct now) := by
  refine goodChain_initialize _ now ?_
  refine ⟨rfl, ?_, ?_⟩
  · intro i
    exact absurd i.isLt (by simp)
  · intro b hb
    simp at hb

/-- Every operation only appends: the old chain is an initial segment of
the new one. -/
theorem applyOp_chain_extends (bc : Blockchain) (op : Op) :
    ∃ suffix, (applyOp bc op).chain = bc.chain ++ suffix := by
  cases op with
  | addBlock now b => exact ⟨[bc.addedBlock now b], rfl⟩
  | initChain now =>
      unfold applyOp Blockchain.initializeChain
      by_cases hh : bc.height = -1
      · simp only [hh, if_pos rfl]
        exact ⟨[_], rfl⟩
      · simp only [if_neg hh]
        exact ⟨[], by simp⟩
  | submit verify now address message signature star =>
      unfold applyOp Blockchain.submitStar
      dsimp only
      split
      · exact ⟨[], by simp⟩
      · split
        · exact ⟨[], by simp⟩
        · exact ⟨[_], rfl⟩

theorem runOps_chain_extends (bc : Blockchain) (ops : List Op) :
    ∃ suffix, (runOps bc ops).chain = bc.chain ++ suffix := by
  induction ops generalizing bc with
  | nil => exact ⟨[], by simp [runOps]⟩
  | cons op ops ih =>
      obtain ⟨s1, hs1⟩ := applyOp_chain_extends bc op
      obtain ⟨s2, hs2⟩ := ih (applyOp bc op)
      exact ⟨s1 ++ s2, by simp [runOps] at hs2 ⊢; rw [hs2, hs1, List.append_assoc]⟩

/-! ## Claim theorems -/

theorem submitStar_expired_all (bc : Blockchain) (now : Nat)
    (address message signature star : String) (t : Int)
    (hparse : jsMessageTime message = some t)
    (hexp : (now : Int) - t > 300) :
    ∀ verify : String → String → String → Bool,
      bc.submitStar verify now address message signature star =
        (Except.error SubmitError.expiredChallenge, bc) := by
  intro verify
  have h300 : VALIDATION_TIMEOUT_SECONDS = 300 := by norm_num [VALIDATION_TIMEOUT_SECONDS]
  simp [Blockchain.submitStar, hparse, h300, hexp]

/-- C3: a submission whose challenge timestamp is more than 300 seconds
older than the current time is rejected with `expiredChallenge` for every
signature verifier (so the result is independent of the verifier — the
verifier is not consulted), and the ledger state is unchanged. -/
theorem claim_C3_expired_rejection (bc : Blockchain)
    (verify : String → String → String → Bool) (now : Nat)
    (address message signature star : String) (t : Int)
    (hparse : jsMessageTime message = some t)
    (hexp : (now : Int) - t > 300) :
    bc.submitStar verify now address message signature star =
      (Except.error SubmitError.expiredChallenge, bc) ∧
    ∀ verify2 : String → String → String → Bool,
      bc.submitStar verify now address message signature star =
        bc.submitStar verify2 now address message signature star := by
  have key := submitStar_expired_all bc now address message signature star t hparse hexp
  exact ⟨key verify, fun verify2 => (key verify).trans (key verify2).symm⟩

/-- C3 witness: a challenge stamped at second 0 submitted at second 400
with an always-accepting verifier is rejected as expired. -/
theorem claim_C3_witness :
    (Blockchain.construct 0).submitStar (fun _ _ _ => true) 400
        "A" "A:0:starRegistry" "sig" "star" =
      (Except.error SubmitError.expiredChallenge, Blockchain.construct 0) ∧
    ∀ verify2 : String → String → String → Bool,
      (Blockchain.construct 0).submitStar (fun _ _ _ => true) 400
          "A" "A:0:starRegistry" "sig" "star" =
        (Blockchain.construct 0).submitStar verify2 400
          "A" "A:0:starRegistry" "sig" "star" :=
  claim_C3_expired_rejection (Blockchain.construct 0) (fun _ _ _ => true) 400
    "A" "A:0:starRegistry" "sig" "star" 0 (by rfl) (by decide)

/-- C4: a submission inside the 300-second window whose signature does not
verify is rejected with `invalidSignature`, and the ledger state — the
chain and every record in it — is exactly the state before the call. -/
theorem claim_C4_invalid_signature (bc : Blockchain)
    (verify : String → String → String → Bool) (now : Nat)
    (address message signature star : String) (t : Int)
    (hparse : jsMessageTime message = some t)
    (hwin : (now : Int) - t ≤ 300)
    (hsig : verify message address signature = false) :
    bc.submitStar verify now address message signature star =
      (Except.error SubmitError.invalidSignature, bc) := by
  have h300 : VALIDATION_TIMEOUT_SECONDS = 300 := by norm_num [VALIDATION_TIMEOUT_SECONDS]
  have hnot : ¬((now : Int) - t > 300) := by omega
  simp [Blockchain.submitStar, hparse, h300, hnot, hsig]

/-- C4 witness: a fresh challenge with an always-refusing verifier is
rejected with `invalidSignature` and leaves the ledger untouched. -/
theorem claim_C4_witness :
    (Blockchain.construct 0).submitStar (fun _ _ _ => false) 100
        "A" "A:100:starRegistry" "sig" "star" =
      (Except.error SubmitError.invalidSignature, Blockchain.construct 0) :=
  claim_C4_invalid_signature (Blockchain.construct 0) (fun _ _ _ => false) 100
    "A" "A:100:starRegistry" "sig" "star" 100 (by rfl) (by decide) rfl

/-- C10: when the second colon-delimited field of the challenge does not
parse as a number (the JS `NaN` case, modelled as `none`), the expiry
comparison is false, so the submission is never rejected as expired: it
goes straight to signature verification, appending on success and
rejecting with `invalidSignature` otherwise. -/
theorem claim_C10_nan_challenge (bc : Blockchain)
    (verify : String → String → String → Bool) (now : Nat)
    (address message signature star : String)
    (hparse : jsMessageTime message = none) :
    (bc.submitStar verify now address message signature star).1 ≠
      Except.error SubmitError.expiredChallenge ∧
    bc.submitStar verify now address message signature star =
      (if verify message address signature then
        (Except.ok (bc._addBlock now (Block.construct (BData.claim address star))).2,
         (bc._addBlock now (Block.construct (BData.claim address star))).1)
      else (Except.error SubmitError.invalidSignature, bc)) := by
  cases hv : verify message address signature with
  | false => simp [Blockchain.submitStar, hparse, hv]
  | true => simp [Blockchain.submitStar, hparse, hv]

/-- C10 witness: a challenge issued for an address that itself contains a
colon has a non-numeric second field; submission at any later time is not
rejected as expired but proceeds to the (here refusing) verifier. -/
theorem claim_C10_witness :
    ((Blockchain.construct 0).submitStar (fun _ _ _ => false) 999999
        "my:addr" (Blockchain.requestMessageOwnershipVerification 100 "my:addr")
        "sig" "star").1 ≠
      Except.error SubmitError.expiredChallenge ∧
    (Blockchain.construct 0).submitStar (fun _ _ _ => false) 999999
        "my:addr" (Blockchain.requestMessageOwnershipVerification 100 "my:addr")
        "sig" "star" =
      (if (fun (_ _ _ : String) => false)
            (Blockchain.requestMessageOwnershipVerification 100 "my:addr") "my:addr" "sig" then
        (Except.ok ((Blockchain.construct 0)._addBlock 999999
            (Block.construct (BData.claim "my:addr" "star"))).2,
         ((Blockchain.construct 0)._addBlock 999999
            (Block.construct (BData.claim "my:addr" "star"))).1)
      else (Except.error SubmitError.invalidSignature, Blockchain.construct 0)) :=
  claim_C10_nan_challenge (Blockchain.construct 0) (fun _ _ _ => false) 999999
    "my:addr" (Blockchain.requestMessageOwnershipVerification 100 "my:addr")
    "sig" "star" (by rfl)

/-- C7: after any sequence of operations on a freshly constructed ledger,
the record at position `i` has height `i` and the cached height equals
the chain length minus one. -/
theorem claim_C7_height_invariant (t0 : Nat) (ops : List Op) :
    (runOps (Blockchain.construct t0) ops).height =
      ((runOps (Blockchain.construct t0) ops).chain.length : Int) - 1 ∧
    ∀ i : Fin (runOps (Blockchain.construct t0) ops).chain.length,
      ((runOps (Blockchain.construct t0) ops).chain.get i).height = (i.val : Int) := by
  have h := goodChain_runOps _ ops (goodChain_construct t0)
  exact ⟨h.1, h.2.1⟩

/-- C8: a chain produced purely by ledger operations on a fresh ledger,
with no record mutated afterwards, passes `validateChain` with an empty
error log. -/
theorem claim_C8_untampered_valid (t0 : Nat) (ops : List Op) :
    (runOps (Blockchain.construct t0) ops).validateChain = [] := by
  have h := goodChain_runOps _ ops (goodChain_construct t0)
  unfold Blockchain.validateChain
  refine List.filter_eq_nil_iff.mpr ?_
  intro b hb
  have hv := h.2.2 b hb
  simp [hv]

/-- C6: the constructor creates exactly one genesis record at height 0,
and any number of further `initializeChain` calls (guarded by the cached
height) leaves the ledger completely unchanged. -/
theorem claim_C6_genesis_idempotent (t0 : Nat) (ts : List Nat) :
    ts.foldl Blockchain.initializeChain (Blockchain.construct t0) =
      Blockchain.construct t0 ∧
    (Blockchain.construct t0).chain.length = 1 ∧
    ∀ b ∈ (Blockchain.construct t0).chain, b.height = 0 := by
  have hfix : ∀ (bc : Blockchain), bc.height ≠ -1 →
      ∀ us : List Nat, us.foldl Blockchain.initializeChain bc = bc := by
    intro bc h us
    induction us with
    | nil => rfl
    | cons u us ih => rw [List.foldl_cons, initializeChain_noop bc u h, ih]
  have hh0 : (Blockchain.construct t0).height = 0 := rfl
  refine ⟨hfix _ (by rw [hh0]; decide) ts, rfl, ?_⟩
  intro b hb
  have hch : (Blockchain.construct t0).chain =
      [Blockchain.addedBlock { chain := [], height := -1 } t0
        (Block.construct (BData.str "Genesis Block"))] := rfl
  rw [hch] at hb
  rcases List.mem_singleton.mp hb with rfl
  rfl

/-- C5: the hash assigned by `_addBlock` is exactly the digest of the
own (`height`, `time`, `previousBlockHash`, `body`) of the added block — the
stored hash field is excluded from the preimage — the result of
`_addBlock` does not depend on the hash field of the incoming block, and no
later operation mutates any already-stored record (operations only ever
append to the chain). -/
theorem claim_C5_hash_purity (bc : Blockchain) (now : Nat) (b : Block)
    (h : Option Hash) (ops : List Op) :
    ((bc._addBlock now b).2).hash =
      some (Hash.sha256 ((bc._addBlock now b).2).height ((bc._addBlock now b).2).time
        ((bc._addBlock now b).2).previousBlockHash ((bc._addBlock now b).2).body) ∧
    bc._addBlock now { b with hash := h } = bc._addBlock now b ∧
    ∃ suffix, (runOps bc ops).chain = bc.chain ++ suffix :=
  ⟨rfl, rfl, runOps_chain_extends bc ops⟩

/-- The error-log predicate of `validateChain`, in propositional form. -/
theorem errorPred_eq_true_iff (chain : List Block) (b : Block) :
    ((if b.validate then false
      else
        match chainGet chain (b.height + 1) with
        | some nextBlock => decide (nextBlock.previousBlockHash ≠ b.hash)
        | none => false) = true) ↔
    (b.validate = false ∧
      ∃ nextBlock, chainGet chain (b.height + 1) = some nextBlock ∧
        nextBlock.previousBlockHash ≠ b.hash) := by
  cases hv : b.validate <;> cases hg : chainGet chain (b.height + 1) <;> simp

/-- C1 (amended): `validateChain()` returns, in chain order, exactly the
records whose self-validation fails AND that have a successor at index
`height + 1` whose `previousBlockHash` differs from the stored hash of
the record; a record failing only one of the two checks is not reported. -/
theorem claim_C1_amended_error_log (bc : Blockchain) :
    List.Sublist bc.validateChain bc.chain ∧
    ∀ b : Block, b ∈ bc.validateChain ↔
      (b ∈ bc.chain ∧ b.validate = false ∧
        ∃ nextBlock, chainGet bc.chain (b.height + 1) = some nextBlock ∧
          nextBlock.previousBlockHash ≠ b.hash) := by
  constructor
  · exact List.filter_sublist bc.chain
  · intro b
    unfold Blockchain.validateChain
    rw [List.mem_filter]
    rw [and_congr_right_iff]
    intro _
    exact errorPred_eq_true_iff bc.chain b

/-- C1 counterexample: in `tamperedChain` the block at index 1 fails its
self-validation (so the claim classifies it as corrupt and the chain is
not fully valid), yet `validateChain()` returns the empty list. -/
theorem claim_C1_counterexample :
    (tamperedChain.chain.getD 1 (Block.construct (BData.str ""))).validate = false ∧
    tamperedChain.chain.getD 1 (Block.construct (BData.str "")) ∈ tamperedChain.chain ∧
    tamperedChain.validateChain = [] := by decide

/-- C2 (code evaluation at the failing input): the untampered example
chain of four blocks validates cleanly; overwriting only the payload of
the non-terminal block at index 1 leaves `validateChain()` empty — the
mutation is not detected, contradicting tamper-detection property P4. -/
theorem claim_C2_tamper_undetected :
    exampleChain.chain.length = 4 ∧
    exampleChain.validateChain = [] ∧
    origBlock1.body = BData.str "foo" ∧
    tamperedChain.chain =
      exampleChain.chain.set 1 { origBlock1 with body := BData.str "tampered" } ∧
    tamperedChain.validateChain = [] := by decide

/-- C9: `getStarsByWalletAddress` is the ordered decode of the non-genesis
records filtered to the given owner: it equals mapping the decode over the
non-genesis blocks kept by the owner test, and a decoded payload is in the
result iff it is the decode of some non-genesis block and its owner is the
queried address. -/
theorem claim_C9_owner_filter (bc : Blockchain) (address : String) :
    bc.getStarsByWalletAddress address =
      ((bc.chain.drop 1).filter fun b => (b.getBData).ownerIs address).map
        Block.getBData ∧
    ∀ d : BData, d ∈ bc.getStarsByWalletAddress address ↔
      ((∃ b ∈ bc.chain.drop 1, b.getBData = d) ∧ d.ownerIs address = true) := by
  constructor
  · unfold Blockchain.getStarsByWalletAddress
    exact List.filter_map Block.getBData (bc.chain.drop 1)
  · intro d
    unfold Blockchain.getStarsByWalletAddress
    rw [List.mem_filter, List.mem_map]
